import Mathlib

/-!
Shallow embedding of the fake-news-detection notebook pipeline
(fake_news_detection, one notebook).

A pandas data frame is embedded as a list of rows; a row is an association
list from column names to cell values.  Cell values are strings or
rationals (Python numbers are embedded as rationals).  Every pandas
operation that can raise (column lookup, column drop) is embedded as an
Option- or Except-valued function, so a failing row aborts the whole
frame-level operation just as the exception aborts the Python call.
External libraries that the notebook delegates to (textstat, textblob,
requests, pandas JSON parsing, sklearn fitting and scoring, keras, the
wall clock) are parameters of the embedding, collected in environment
structures; the glue code of the notebook itself is translated directly.
-/

/-- A cell value of the feature table: a string or a number
(Python numbers are embedded as rationals). -/
inductive Value where
  | str (s : String)
  | num (q : Rat)
deriving DecidableEq

/-- A data-frame row: an association list from column names to values. -/
abbrev Row := List (String × Value)

/-- Column lookup in one row: the first binding of the column name. -/
def getVal (r : Row) (c : String) : Option Value :=
  match r with
  | [] => none
  | p :: rest => if p.1 = c then some p.2 else getVal rest c

/-- Column assignment restricted to one row: replaces the first binding of
the name in place, or appends a new column at the end, exactly as a pandas
column assignment keeps an existing column position and appends a new one. -/
def setVal (r : Row) (c : String) (v : Value) : Row :=
  match r with
  | [] => [(c, v)]
  | p :: rest => if p.1 = c then (c, v) :: rest else p :: setVal rest c v

/-- Removal of a set of columns from one row. -/
def dropKeys (names : List String) (r : Row) : Row :=
  r.filter (fun p => !(names.contains p.1))

/-- Option-valued map over a list: succeeds only when the function succeeds
on every element, preserving order.  This is how a per-row pandas operation
lifts to the whole frame: the first failing row aborts the operation. -/
def optMap {α β : Type} (f : α → Option β) : List α → Option (List β)
  | [] => some []
  | a :: as =>
    match f a, optMap f as with
    | some b, some bs => some (b :: bs)
    | _, _ => none

/-- Does the pattern occur at the head of the text (character-list version
of string prefix testing)? -/
def occursAtHead : List Char → List Char → Bool
  | [], _ => true
  | _ :: _, [] => false
  | a :: as, b :: bs => a == b && occursAtHead as bs

/-- Does the pattern occur contiguously anywhere in the text? -/
def occursIn (needle : List Char) : List Char → Bool
  | [] => needle.isEmpty
  | b :: bs => occursAtHead needle (b :: bs) || occursIn needle bs

/-- Python substring containment (the binary `in` test) on strings. -/
def strContains (haystack needle : String) : Bool :=
  occursIn needle.data haystack.data

/-- The fixed denylist of registrant country codes (`sus_countries`). -/
def sus_countries : List String := ["MK", "PA"]

/-- Embeds `is_suspicious_country`: 1 when the country is in the denylist
or contains the literal marker "REDACTED", else 0 (the Python `int` of the
Boolean disjunction, in the source order of the two tests). -/
def is_suspicious_country (country : String) : Nat :=
  if sus_countries.contains country || strContains country "REDACTED" then 1 else 0

/-- Environment of the external text-statistics and sentiment libraries and
the wall clock (textstat, textblob, `datetime.datetime.now`): parameters of
the embedding, since their code is not part of this repository. -/
structure Env where
  flesch_reading_ease : String → Rat
  difficult_words : String → Nat
  lexicon_count : String → Nat
  polarity : String → Rat
  subjectivity : String → Rat
  now_timestamp : Rat

/-- Embeds `percent_difficult_words`: 0 when the lexicon count is zero (the
guard in the source, taken before any division), otherwise the
difficult-word count divided by the lexicon count. -/
def percent_difficult_words (env : Env) (article : String) : Rat :=
  if env.lexicon_count article = 0 then 0
  else (env.difficult_words article : Rat) / (env.lexicon_count article : Rat)

/-- Embeds `analyze_sentiment`: rescales the polarity and the subjectivity
of the article via (value + 1) / 2 and returns the pair. -/
def analyze_sentiment (env : Env) (article : String) : Rat × Rat :=
  ((env.polarity article + 1) / 2, (env.subjectivity article + 1) / 2)

/-- One row of `add_suspicious_country_column`: applies
`is_suspicious_country` to the "country" cell; fails when the column is
missing (pandas KeyError) or, as the Python substring test on a non-string
would, when the cell is not a string. -/
def add_suspicious_country_row (r : Row) : Option Row :=
  match getVal r "country" with
  | some (Value.str s) =>
      some (setVal r "is_suspicious_country" (Value.num (is_suspicious_country s)))
  | _ => none

/-- Embeds `add_suspicious_country_column` on the whole frame. -/
def add_suspicious_country_column (df : List Row) : Option (List Row) :=
  optMap add_suspicious_country_row df

/-- One row of `add_flesch_reading_ease_column`: applies the textstat
reading-ease function to the "article_text" cell. -/
def add_flesch_reading_ease_row (env : Env) (r : Row) : Option Row :=
  match getVal r "article_text" with
  | some (Value.str s) =>
      some (setVal r "flesch_reading_ease" (Value.num (env.flesch_reading_ease s)))
  | _ => none

/-- Embeds `add_flesch_reading_ease_column` on the whole frame. -/
def add_flesch_reading_ease_column (env : Env) (df : List Row) : Option (List Row) :=
  optMap (add_flesch_reading_ease_row env) df

/-- One row of `add_percent_difficult_words_column`. -/
def add_percent_difficult_words_row (env : Env) (r : Row) : Option Row :=
  match getVal r "article_text" with
  | some (Value.str s) =>
      some (setVal r "percent_difficult_words" (Value.num (percent_difficult_words env s)))
  | _ => none

/-- Embeds `add_percent_difficult_words_column` on the whole frame. -/
def add_percent_difficult_words_column (env : Env) (df : List Row) : Option (List Row) :=
  optMap (add_percent_difficult_words_row env) df

/-- One row of `add_sentiment_columns`: sets "article_polarity" and then
"article_subjectivity" from the pair `analyze_sentiment` returns. -/
def add_sentiment_row (env : Env) (r : Row) : Option Row :=
  match getVal r "article_text" with
  | some (Value.str s) =>
      some (setVal (setVal r "article_polarity" (Value.num (analyze_sentiment env s).1))
                   "article_subjectivity" (Value.num (analyze_sentiment env s).2))
  | _ => none

/-- Embeds `add_sentiment_columns` on the whole frame. -/
def add_sentiment_columns (env : Env) (df : List Row) : Option (List Row) :=
  optMap (add_sentiment_row env) df

/-- Embeds `add_features`: the four feature-adding transforms in source
order, each reassigning the frame. -/
def add_features (env : Env) (df : List Row) : Option (List Row) :=
  (add_suspicious_country_column df).bind (fun d1 =>
  (add_flesch_reading_ease_column env d1).bind (fun d2 =>
  (add_percent_difficult_words_column env d2).bind (fun d3 =>
  add_sentiment_columns env d3)))

/-- The columns `drop_features` removes. -/
def dropped_columns : List String :=
  ["id", "article_text", "country", "title", "news_url"]

/-- One row of `drop_features`: removes the five dropped columns, failing
with a KeyError when one is absent (the pandas `drop` default).  The
subsequent `reset_index(drop=True)` renumbers the positional index and is
the identity in this embedding, which keeps no index. -/
def drop_features_row (r : Row) : Option Row :=
  if dropped_columns.all (fun c => (getVal r c).isSome) then some (dropKeys dropped_columns r)
  else none

/-- Embeds `drop_features` on the whole frame. -/
def drop_features (df : List Row) : Option (List Row) :=
  optMap drop_features_row df

/-- One row of `scale_creation_dates`: divides the "creation_date" cell by
the wall-clock timestamp sampled at pipeline-run time; fails when the
column is missing or, as the Python division would, when the cell is not
numeric. -/
def scale_creation_dates_row (env : Env) (r : Row) : Option Row :=
  match getVal r "creation_date" with
  | some (Value.num q) =>
      some (setVal r "creation_date" (Value.num (q / env.now_timestamp)))
  | _ => none

/-- Embeds `scale_creation_dates` on the whole frame. -/
def scale_creation_dates (env : Env) (df : List Row) : Option (List Row) :=
  optMap (scale_creation_dates_row env) df

/-- Embeds `scale_features` (creation-date scaling only). -/
def scale_features (env : Env) (df : List Row) : Option (List Row) :=
  scale_creation_dates env df

/-- Embeds `refine_fake_news_data`: add features, drop features, scale
features, in source order. -/
def refine_fake_news_data (env : Env) (df : List Row) : Option (List Row) :=
  (add_features env df).bind (fun d1 =>
  (drop_features d1).bind (fun d2 =>
  scale_features env d2))

/-- The per-row function of the four feature-adding transforms in order. -/
def add_features_row (env : Env) (r : Row) : Option Row :=
  (add_suspicious_country_row r).bind (fun r1 =>
  (add_flesch_reading_ease_row env r1).bind (fun r2 =>
  (add_percent_difficult_words_row env r2).bind (fun r3 =>
  add_sentiment_row env r3)))

/-- The per-row function of the whole refinement pipeline. -/
def refine_fake_news_data_row (env : Env) (r : Row) : Option Row :=
  (add_features_row env r).bind (fun r1 =>
  (drop_features_row r1).bind (fun r2 =>
  scale_creation_dates_row env r2))

/-- The derived feature columns the pipeline adds before pruning. -/
def derived_feature_columns : List String :=
  ["is_suspicious_country", "flesch_reading_ease", "percent_difficult_words",
   "article_polarity", "article_subjectivity"]

/-- Failure of the data loader: a transport error from the HTTP library, a
JSON parse error from `pandas.read_json`, or a missing-column KeyError. -/
inductive FetchError where
  | network (msg : String)
  | badJson
  | keyError (col : String)
deriving DecidableEq

/-- Environment abstracting the network and the JSON parser: `fetch` is the
HTTP text request (erroring when the request errors) and `parse` is
`pandas.read_json` producing the rows of the frame. -/
structure Web where
  fetch : String → Except FetchError String
  parse : String → Except FetchError (List Row)

/-- The fixed remote base URL of the dataset files. -/
def base_url : String :=
  "https://raw.githubusercontent.com/HackBinghamton/MachineLearningWorkshopWeek2/master/fake_news_detection/"

/-- Embeds the pandas drop of one column: errors with a KeyError when the
column is absent, otherwise removes the column from every row. -/
def pd_drop_column (col : String) (df : List Row) : Except FetchError (List Row) :=
  match optMap (fun r => if (getVal r col).isSome then some (dropKeys [col] r) else none) df with
  | some out => Except.ok out
  | none => Except.error (FetchError.keyError col)

/-- Embeds the pandas selection of one column: errors with a KeyError when
the column is absent, otherwise the column values in row order. -/
def pd_get_column (col : String) (df : List Row) : Except FetchError (List Value) :=
  match optMap (fun r => getVal r col) df with
  | some vs => Except.ok vs
  | none => Except.error (FetchError.keyError col)

/-- Embeds `load_fake_news_data`: fetch the named file from the fixed base
URL, parse it, drop the label column "is_fake" from the features and return
it separately; every failure propagates (no catch, no retry, no fallback). -/
def load_fake_news_data (web : Web) (file_name : String) :
    Except FetchError (List Row × List Value) := do
  let json_data ← web.fetch (base_url ++ file_name)
  let fake_news_data ← web.parse json_data
  let fake_news_features ← pd_drop_column "is_fake" fake_news_data
  let fake_news_labels ← pd_get_column "is_fake" fake_news_data
  return (fake_news_features, fake_news_labels)

/-- Embeds `load_fake_news_training_data`. -/
def load_fake_news_training_data (web : Web) : Except FetchError (List Row × List Value) :=
  load_fake_news_data web "fakenewsnet_modified_training_set.json"

/-- Embeds `load_fake_news_testing_data`. -/
def load_fake_news_testing_data (web : Web) : Except FetchError (List Row × List Value) :=
  load_fake_news_data web "fakenewsnet_modified_testing_set.json"

/-- One classifier configuration of the fixed panel; constructor arguments
record the non-default parameters passed at the source call sites. -/
inductive Classifier where
  | logisticRegression (solver : String)
  | linearDiscriminantAnalysis
  | kNeighborsClassifier
  | decisionTreeClassifier
  | gaussianNB
  | svc (gamma : String)
  | baggingClassifier
  | randomForestClassifier (n_estimators : Nat)
deriving DecidableEq

/-- The fixed panel of eight named classifier configurations (`models`). -/
def models : List (String × Classifier) :=
  [ ("Logistic Regression", Classifier.logisticRegression "lbfgs")
  , ("Linear Discriminant Analysis", Classifier.linearDiscriminantAnalysis)
  , ("K-Nearest Neighbors", Classifier.kNeighborsClassifier)
  , ("Decision Tree", Classifier.decisionTreeClassifier)
  , ("Gaussian Naive Bayes", Classifier.gaussianNB)
  , ("Support Vector Machine", Classifier.svc "scale")
  , ("Bagging Classifier", Classifier.baggingClassifier)
  , ("Random Forest Classifier", Classifier.randomForestClassifier 100) ]

/-- Modelled from the spec: the fold sizes of sklearn `KFold(n_splits=k)`
without shuffling on `n` samples (the sklearn code is not part of this
repository; the spec fixes k = 10 with deterministic, unshuffled folds).
The first `n % k` folds hold one extra sample. -/
def fold_sizes (k n : Nat) : List Nat :=
  (List.range k).map (fun i => if i < n % k then n / k + 1 else n / k)

/-- Contiguous index blocks of the given sizes, starting at a given index. -/
def contiguous_blocks : List Nat → Nat → List (List Nat)
  | [], _ => []
  | s :: rest, start => List.range' start s :: contiguous_blocks rest (start + s)

/-- Modelled from the spec: the test-index folds that deterministic,
unshuffled k-fold splitting yields on `n` samples - contiguous blocks in
index order; fails (sklearn raises ValueError) when there are fewer samples
than splits. -/
def kfold_test_folds (k n : Nat) : Option (List (List Nat)) :=
  if n < k then none else some (contiguous_blocks (fold_sizes k n) 0)

/-- The (train, test) index pairs of the folds: the training indices of a
fold are all sample indices outside its test block, in order. -/
def kfold_splits (k n : Nat) : Option (List (List Nat × List Nat)) :=
  (kfold_test_folds k n).map
    (List.map (fun te => ((List.range n).filter (fun i => !(te.contains i)), te)))

/-- Environment abstracting sklearn model fitting and scoring: given a
classifier configuration, training indices and test indices, the accuracy
the fitted model scores on the test fold. -/
structure SkEnv where
  fit_accuracy : Classifier → List Nat → List Nat → Rat

/-- Embeds the cross-validation call of the source (k-fold splitting plus
fit-and-score on each fold) for a frame of `n` rows: one accuracy score per
fold. -/
def cross_val_score (env : SkEnv) (clf : Classifier) (k n : Nat) : Option (List Rat) :=
  (kfold_splits k n).map (List.map (fun s => env.fit_accuracy clf s.1 s.2))

/-- Arithmetic mean of a list of rationals (numpy mean). -/
def mean (xs : List Rat) : Rat := xs.sum / (xs.length : Rat)

/-- Population variance (numpy default, ddof = 0).  The standard deviation
the source prints is the square root of this value; the square root is
irrational in general, so report rows carry the variance, which determines
it. -/
def population_variance (xs : List Rat) : Rat :=
  mean (xs.map (fun x => (x - mean xs) ^ 2))

/-- Embeds `evaluate_sklearn_models` on a frame of `n` rows: for each of
the eight configured models in order, 10-fold cross-validation accuracies
summarized as one report row (name, mean accuracy, dispersion across
folds); the source emits one such line per model. -/
def evaluate_sklearn_models (env : SkEnv) (n : Nat) :
    Option (List (String × Rat × Rat)) :=
  optMap (fun m => (cross_val_score env m.2 10 n).map
    (fun scores => (m.1, mean scores, population_variance scores))) models

/-- One keras layer of the fixed topology. -/
inductive Layer where
  | dense (units : Nat) (activation : String)
  | dropout (rate : Rat)
deriving DecidableEq

/-- Trace of one keras fit call: the full feature rows and labels passed,
and the keyword arguments of the call site; an absent keyword is `none` or
empty, meaning the library default applies. -/
structure FitCall where
  x : List Row
  y : List Value
  epochs : Nat
  batch_size : Option Nat
  callbacks : List String
  validation_split : Option Rat

/-- Embeds the keras sequential model state: the layer stack, the compile
arguments, and the trace of fit calls issued against the model. -/
structure NeuralNetworkModel where
  layers : List Layer
  optimizer : String
  loss : String
  metrics : List String
  fit_calls : List FitCall

/-- Embeds `create_neural_network`: a dense 1024-unit relu layer, a dropout
layer with rate 0.2, a dense 2-unit softmax layer, compiled with the adam
optimizer, sparse categorical cross-entropy loss, tracking accuracy. -/
def create_neural_network : NeuralNetworkModel :=
  { layers := [Layer.dense 1024 "relu", Layer.dropout (2 / 10), Layer.dense 2 "softmax"]
  , optimizer := "adam"
  , loss := "sparse_categorical_crossentropy"
  , metrics := ["accuracy"]
  , fit_calls := [] }

/-- Embeds `train_neural_network`: issues exactly one fit call on the model
with the full training features and labels and 400 epochs; no other keyword
is passed, so batch size, callbacks and validation split are the library
defaults. -/
def train_neural_network (m : NeuralNetworkModel) (training_features : List Row)
    (training_labels : List Value) : NeuralNetworkModel :=
  { m with fit_calls :=
      m.fit_calls ++ [⟨training_features, training_labels, 400, none, [], none⟩] }

/-- Modelled from the spec: the batching a keras fit call uses when the
call passes no batch size.  The spec states training runs full-batch per
the library default, so the effective batch size of such a call is the
whole training set (the keras code is not part of this repository). -/
def keras_effective_batch_size (c : FitCall) : Nat :=
  match c.batch_size with
  | some b => b
  | none => c.x.length

/-- A degenerate external-library environment for concrete evaluations:
every text statistic is zero and the wall clock reads 1. -/
def env_zero : Env :=
  ⟨fun _ => 0, fun _ => 0, fun _ => 0, fun _ => 0, fun _ => 0, 1⟩

/-- An environment whose lexicon counter reports two countable words and
one difficult word for every text. -/
def env_words : Env :=
  ⟨fun _ => 0, fun _ => 1, fun _ => 2, fun _ => 0, fun _ => 0, 1⟩

/-- A one-row input frame holding the required source columns. -/
def sample_df : List Row :=
  [[("id", Value.num 1), ("news_url", Value.str "u"), ("title", Value.str "t"),
    ("article_text", Value.str "a"), ("country", Value.str "US"),
    ("creation_date", Value.num 1)]]

/-- The single row of `sample_df` after feature adding and pruning under
`env_zero`: the surviving source column and the five derived features (the
numeric expressions are kept in the exact arithmetic form the pipeline
produces). -/
def pruned_unscaled_sample_row : Row :=
  [("creation_date", Value.num 1),
   ("is_suspicious_country", Value.num ((0 : Nat) : Rat)),
   ("flesch_reading_ease", Value.num 0),
   ("percent_difficult_words", Value.num 0),
   ("article_polarity", Value.num ((0 + 1) / 2)),
   ("article_subjectivity", Value.num ((0 + 1) / 2))]

/-- The single row of `sample_df` after the whole refinement pipeline under
`env_zero`: as after pruning, with the creation date divided by the wall
clock reading 1. -/
def pruned_sample_row : Row :=
  [("creation_date", Value.num (1 / 1)),
   ("is_suspicious_country", Value.num ((0 : Nat) : Rat)),
   ("flesch_reading_ease", Value.num 0),
   ("percent_difficult_words", Value.num 0),
   ("article_polarity", Value.num ((0 + 1) / 2)),
   ("article_subjectivity", Value.num ((0 + 1) / 2))]

/-- A degenerate sklearn environment scoring every fold at accuracy 1. -/
def sk_env_one : SkEnv := ⟨fun _ _ _ => 1⟩

/-- A degenerate web environment: the fetch returns a fixed document and
the parser returns a fixed one-row frame with an "is_fake" column. -/
def web_ok : Web :=
  ⟨fun _ => Except.ok "doc",
   fun _ => Except.ok [[("title", Value.str "t"), ("is_fake", Value.num 1)]]⟩

/-! Helper lemmas about rows, option-valued maps, and substring search. -/

/-- Looking up the column just assigned yields the assigned value. -/
theorem getVal_setVal_self (r : Row) (c : String) (v : Value) :
    getVal (setVal r c v) c = some v := by
  induction r with
  | nil => simp [setVal, getVal]
  | cons p rest ih =>
    by_cases h : p.1 = c
    · simp [setVal, h, getVal]
    · simp [setVal, h, getVal, ih]

/-- Assigning one column leaves every other column unchanged. -/
theorem getVal_setVal_ne (r : Row) (c c2 : String) (v : Value) (h : c ≠ c2) :
    getVal (setVal r c v) c2 = getVal r c2 := by
  induction r with
  | nil => simp [setVal, getVal, h]
  | cons p rest ih =>
    by_cases hp : p.1 = c
    · simp [setVal, hp, getVal, h, hp.symm ▸ h]
    · simp [setVal, hp, getVal, ih]

/-- Assignment preserves the presence of every column. -/
theorem getVal_setVal_isSome (r : Row) (c c2 : String) (v : Value)
    (h : (getVal r c2).isSome = true) : (getVal (setVal r c v) c2).isSome = true := by
  by_cases hc : c = c2
  · subst hc; simp [getVal_setVal_self]
  · rw [getVal_setVal_ne r c c2 v hc]; exact h

/-- A dropped column is absent from the resulting row. -/
theorem getVal_dropKeys_of_mem (names : List String) (r : Row) (c : String)
    (h : c ∈ names) : getVal (dropKeys names r) c = none := by
  induction r with
  | nil => rfl
  | cons p rest ih =>
    by_cases hp : p.1 ∈ names
    · simpa [dropKeys, List.filter_cons, hp] using ih
    · have hne : p.1 ≠ c := fun he => hp (he ▸ h)
      simpa [dropKeys, List.filter_cons, hp, getVal, hne] using ih

/-- A column outside the dropped set keeps its value. -/
theorem getVal_dropKeys_of_not_mem (names : List String) (r : Row) (c : String)
    (h : ¬ c ∈ names) : getVal (dropKeys names r) c = getVal r c := by
  induction r with
  | nil => rfl
  | cons p rest ih =>
    by_cases hp : p.1 ∈ names
    · have hne : p.1 ≠ c := fun he => h (he ▸ hp)
      simpa [dropKeys, List.filter_cons, hp, getVal, hne] using ih
    · by_cases hc : p.1 = c
      · simp [dropKeys, List.filter_cons, hp, getVal, hc, h]
      · simpa [dropKeys, List.filter_cons, hp, getVal, hc] using ih

/-- A successful option-valued map preserves the length of the list. -/
theorem optMap_length {a b : Type} (f : a → Option b) (l : List a) (l2 : List b)
    (h : optMap f l = some l2) : l2.length = l.length := by
  induction l generalizing l2 with
  | nil =>
    simp [optMap] at h
    simp [h.symm]
  | cons x xs ih =>
    rw [optMap] at h
    cases hx : f x with
    | none => rw [hx] at h; cases h
    | some y =>
      rw [hx] at h
      cases hxs : optMap f xs with
      | none => rw [hxs] at h; cases h
      | some ys =>
        rw [hxs] at h
        cases h
        simp [ih ys hxs]

/-- Fusing two successive option-valued maps into one. -/
theorem optMap_bind {a b c : Type} (f : a → Option b) (g : b → Option c) (l : List a) :
    (optMap f l).bind (optMap g) = optMap (fun x => (f x).bind g) l := by
  induction l with
  | nil => rfl
  | cons x xs ih =>
    rw [optMap, optMap]
    cases hx : f x with
    | none => simp
    | some y =>
      cases hxs : optMap f xs with
      | none =>
        have : (optMap f xs).bind (optMap g) = none := by rw [hxs]; rfl
        rw [this] at ih
        cases hy : g y <;> simp [optMap, hy, ← ih]
      | some ys =>
        have : (optMap f xs).bind (optMap g) = optMap g ys := by rw [hxs]; rfl
        rw [this] at ih
        cases hy : g y with
        | none => simp [optMap, hy]
        | some z => simp [optMap, hy, ← ih]

/-- Every element of the output of a successful option-valued map comes
from some element of the input. -/
theorem optMap_mem {a b : Type} (f : a → Option b) (l : List a) (l2 : List b)
    (h : optMap f l = some l2) : ∀ y ∈ l2, ∃ x ∈ l, f x = some y := by
  induction l generalizing l2 with
  | nil =>
    simp [optMap] at h
    subst h
    simp
  | cons x xs ih =>
    rw [optMap] at h
    cases hx : f x with
    | none => rw [hx] at h; cases h
    | some y =>
      rw [hx] at h
      cases hxs : optMap f xs with
      | none => rw [hxs] at h; cases h
      | some ys =>
        rw [hxs] at h
        cases h
        intro z hz
        rcases List.mem_cons.mp hz with hz | hz
        · exact ⟨x, List.mem_cons_self x xs, by rw [hx, hz]⟩
        · rcases ih ys hxs z hz with ⟨w, hw, hfw⟩
          exact ⟨w, List.mem_cons_of_mem x hw, hfw⟩

/-- An option-valued map that succeeds pointwise computes the plain map. -/
theorem optMap_eq_map {a b : Type} (f : a → Option b) (g : a → b) (l : List a)
    (h : ∀ x ∈ l, f x = some (g x)) : optMap f l = some (l.map g) := by
  induction l with
  | nil => rfl
  | cons x xs ih =>
    rw [optMap, h x (List.mem_cons_self x xs), ih (fun z hz => h z (List.mem_cons_of_mem x hz))]
    rfl

/-- A successful option-valued map succeeded on every element. -/
theorem optMap_isSome_of_eq_some {a b : Type} (f : a → Option b) (l : List a) (l2 : List b)
    (h : optMap f l = some l2) : ∀ x ∈ l, (f x).isSome = true := by
  induction l generalizing l2 with
  | nil => simp
  | cons x xs ih =>
    rw [optMap] at h
    cases hx : f x with
    | none => rw [hx] at h; cases h
    | some y =>
      cases hxs : optMap f xs with
      | none => rw [hx, hxs] at h; cases h
      | some ys =>
        intro z hz
        rcases List.mem_cons.mp hz with hz | hz
        · simp [hz, hx]
        · exact ih ys hxs z hz

/-- One failing element makes the whole option-valued map fail. -/
theorem optMap_eq_none_of_mem {a b : Type} (f : a → Option b) (l : List a) (x : a)
    (hx : x ∈ l) (h : f x = none) : optMap f l = none := by
  induction l with
  | nil => cases hx
  | cons z zs ih =>
    rcases List.mem_cons.mp hx with hx | hx
    · subst hx
      rw [optMap, h]
    · rw [optMap]
      rw [ih hx]
      cases f z <;> rfl

/-- The head-occurrence test holds exactly when the pattern is an initial
segment of the text. -/
theorem occursAtHead_iff (needle hay : List Char) :
    occursAtHead needle hay = true ↔ ∃ t, needle ++ t = hay := by
  induction needle generalizing hay with
  | nil =>
    simp [occursAtHead]
  | cons a as ih =>
    cases hay with
    | nil => simp [occursAtHead]
    | cons b bs =>
      rw [occursAtHead]
      simp only [Bool.and_eq_true, beq_iff_eq, ih]
      constructor
      · rintro ⟨hab, t, ht⟩
        exact ⟨t, by simp [hab, ht]⟩
      · rintro ⟨t, ht⟩
        have h1 : a = b := by
          have := congrArg (fun l => l.head?) ht
          simpa using this
        have h2 : as ++ t = bs := by
          have := congrArg (fun l => l.tail) ht
          simpa using this
        exact ⟨h1, t, h2⟩

/-- The occurrence test holds exactly when the pattern occurs contiguously
somewhere in the text. -/
theorem occursIn_iff (needle hay : List Char) :
    occursIn needle hay = true ↔ ∃ s t, s ++ needle ++ t = hay := by
  induction hay with
  | nil =>
    simp [occursIn, List.isEmpty_iff]
  | cons b bs ih =>
    rw [occursIn]
    simp only [Bool.or_eq_true, occursAtHead_iff, ih]
    constructor
    · rintro (⟨t, ht⟩ | ⟨s, t, hst⟩)
      · exact ⟨[], t, by simpa using ht⟩
      · exact ⟨b :: s, t, by simp [hst]⟩
    · rintro ⟨s, t, hst⟩
      cases s with
      | nil => exact Or.inl ⟨t, by simpa using hst⟩
      | cons s0 srest =>
        have h1 : srest ++ needle ++ t = bs := by
          have := congrArg (fun l => l.tail) hst
          simpa using this
        exact Or.inr ⟨srest, t, h1⟩

/-- String-level reading of the Python substring test. -/
theorem strContains_iff (hay needle : String) :
    strContains hay needle = true ↔ ∃ pre post : String, hay = pre ++ needle ++ post := by
  rw [strContains, occursIn_iff]
  constructor
  · rintro ⟨s, t, hst⟩
    refine ⟨⟨s⟩, ⟨t⟩, ?_⟩
    apply String.ext
    simpa using hst.symm
  · rintro ⟨pre, post, hps⟩
    refine ⟨pre.data, post.data, ?_⟩
    rw [hps]
    simp

/-- Summing a threshold-dependent constant over an index range. -/
theorem sum_range_ite (k q rem : Nat) :
    ((List.range k).map (fun i => if i < rem then q + 1 else q)).sum = k * q + min k rem := by
  induction k with
  | zero => simp
  | succ k ih =>
    rw [List.range_succ, List.map_append, List.sum_append]
    rw [ih]
    have hmul : (k + 1) * q = k * q + q := by ring
    by_cases h : k < rem
    · have hmin1 : min k rem = k := Nat.min_eq_left (le_of_lt h)
      have hmin2 : min (k + 1) rem = k + 1 := Nat.min_eq_left h
      simp only [List.map_cons, List.map_nil, List.sum_cons, List.sum_nil, if_pos h,
        hmin1, hmin2]
      omega
    · have hmin1 : min k rem = rem := Nat.min_eq_right (by omega)
      have hmin2 : min (k + 1) rem = rem := Nat.min_eq_right (by omega)
      simp only [List.map_cons, List.map_nil, List.sum_cons, List.sum_nil, if_neg h,
        hmin1, hmin2]
      omega

/-- The fold sizes of an unshuffled k-fold split sum to the sample count. -/
theorem fold_sizes_sum (k n : Nat) (hk : 0 < k) : (fold_sizes k n).sum = n := by
  rw [fold_sizes, sum_range_ite]
  have h1 : n % k < k := Nat.mod_lt n hk
  have h2 := Nat.div_add_mod n k
  have h3 : min k (n % k) = n % k := Nat.min_eq_right (le_of_lt h1)
  omega

/-- There are as many fold-size entries as requested splits. -/
theorem fold_sizes_length (k n : Nat) : (fold_sizes k n).length = k := by
  simp [fold_sizes]

/-- There are as many contiguous blocks as sizes. -/
theorem contiguous_blocks_length (sizes : List Nat) (start : Nat) :
    (contiguous_blocks sizes start).length = sizes.length := by
  induction sizes generalizing start with
  | nil => rfl
  | cons s rest ih => simp [contiguous_blocks, ih]

/-- The contiguous blocks of the given sizes concatenate, in order, to the
contiguous index range of the total size. -/
theorem contiguous_blocks_flatten (sizes : List Nat) (start : Nat) :
    (contiguous_blocks sizes start).flatten = List.range' start sizes.sum := by
  induction sizes generalizing start with
  | nil => rfl
  | cons s rest ih =>
    rw [contiguous_blocks]
    rw [List.flatten_cons, ih]
    have := List.range'_append start s rest.sum 1
    simpa [Nat.add_comm] using this

/-- Unshuffled k-fold splitting on enough samples: k contiguous test folds
that concatenate to the full index range in order. -/
theorem kfold_test_folds_spec (k n : Nat) (hk : 0 < k) (hn : k ≤ n) :
    ∃ folds, kfold_test_folds k n = some folds ∧ folds.length = k ∧
      folds.flatten = List.range n := by
  refine ⟨contiguous_blocks (fold_sizes k n) 0, ?_, ?_, ?_⟩
  · rw [kfold_test_folds, if_neg (by omega)]
  · rw [contiguous_blocks_length, fold_sizes_length]
  · rw [contiguous_blocks_flatten, fold_sizes_sum k n hk, List.range_eq_range']

/-- The frame-level feature-adding phase is the row-by-row map of the
per-row feature-adding function. -/
theorem add_features_rowwise (env : Env) (df : List Row) :
    add_features env df = optMap (add_features_row env) df := by
  have e34 : ∀ d : List Row,
      (optMap (add_percent_difficult_words_row env) d).bind
        (fun d3 => optMap (add_sentiment_row env) d3) =
      optMap (fun r => (add_percent_difficult_words_row env r).bind
        (add_sentiment_row env)) d :=
    fun d => optMap_bind _ _ d
  have e234 : ∀ d : List Row,
      (optMap (add_flesch_reading_ease_row env) d).bind
        (fun d2 => optMap (fun r => (add_percent_difficult_words_row env r).bind
          (add_sentiment_row env)) d2) =
      optMap (fun r => (add_flesch_reading_ease_row env r).bind
        (fun r2 => (add_percent_difficult_words_row env r2).bind
          (add_sentiment_row env))) d :=
    fun d => optMap_bind _ _ d
  simp only [add_features, add_suspicious_country_column, add_flesch_reading_ease_column,
    add_percent_difficult_words_column, add_sentiment_columns]
  simp only [e34, e234]
  simp only [optMap_bind]
  rfl

/-- The suspicious-country step adds its column and changes no other. -/
theorem add_suspicious_country_row_spec (r r1 : Row)
    (h : add_suspicious_country_row r = some r1) :
    (getVal r1 "is_suspicious_country").isSome = true ∧
    ∀ c, c ≠ "is_suspicious_country" → getVal r1 c = getVal r c := by
  rw [add_suspicious_country_row] at h
  cases hg : getVal r "country" with
  | none => rw [hg] at h; simp at h
  | some v =>
    rw [hg] at h
    cases v with
    | num q => simp at h
    | str s =>
      simp at h
      subst h
      constructor
      · rw [getVal_setVal_self]; rfl
      · intro c hc
        exact getVal_setVal_ne r _ c _ (Ne.symm hc)

/-- The readability step adds its column and changes no other. -/
theorem add_flesch_reading_ease_row_spec (env : Env) (r r1 : Row)
    (h : add_flesch_reading_ease_row env r = some r1) :
    (getVal r1 "flesch_reading_ease").isSome = true ∧
    ∀ c, c ≠ "flesch_reading_ease" → getVal r1 c = getVal r c := by
  rw [add_flesch_reading_ease_row] at h
  cases hg : getVal r "article_text" with
  | none => rw [hg] at h; simp at h
  | some v =>
    rw [hg] at h
    cases v with
    | num q => simp at h
    | str s =>
      simp at h
      subst h
      constructor
      · rw [getVal_setVal_self]; rfl
      · intro c hc
        exact getVal_setVal_ne r _ c _ (Ne.symm hc)

/-- The difficult-word step adds its column and changes no other. -/
theorem add_percent_difficult_words_row_spec (env : Env) (r r1 : Row)
    (h : add_percent_difficult_words_row env r = some r1) :
    (getVal r1 "percent_difficult_words").isSome = true ∧
    ∀ c, c ≠ "percent_difficult_words" → getVal r1 c = getVal r c := by
  rw [add_percent_difficult_words_row] at h
  cases hg : getVal r "article_text" with
  | none => rw [hg] at h; simp at h
  | some v =>
    rw [hg] at h
    cases v with
    | num q => simp at h
    | str s =>
      simp at h
      subst h
      constructor
      · rw [getVal_setVal_self]; rfl
      · intro c hc
        exact getVal_setVal_ne r _ c _ (Ne.symm hc)

/-- The sentiment step adds its two columns and changes no other. -/
theorem add_sentiment_row_spec (env : Env) (r r1 : Row)
    (h : add_sentiment_row env r = some r1) :
    (getVal r1 "article_polarity").isSome = true ∧
    (getVal r1 "article_subjectivity").isSome = true ∧
    ∀ c, c ≠ "article_polarity" → c ≠ "article_subjectivity" →
      getVal r1 c = getVal r c := by
  rw [add_sentiment_row] at h
  cases hg : getVal r "article_text" with
  | none => rw [hg] at h; simp at h
  | some v =>
    rw [hg] at h
    cases v with
    | num q => simp at h
    | str s =>
      simp at h
      subst h
      refine ⟨?_, ?_, ?_⟩
      · rw [getVal_setVal_ne _ _ _ _ (by decide), getVal_setVal_self]; rfl
      · rw [getVal_setVal_self]; rfl
      · intro c h1 h2
        rw [getVal_setVal_ne _ _ _ _ (Ne.symm h2), getVal_setVal_ne _ _ _ _ (Ne.symm h1)]

/-- The whole feature-adding phase on one row: every derived feature column
is present afterwards, and every other column keeps its value. -/
theorem add_features_row_spec (env : Env) (r r1 : Row)
    (h : add_features_row env r = some r1) :
    (∀ c ∈ derived_feature_columns, (getVal r1 c).isSome = true) ∧
    (∀ c, ¬ c ∈ derived_feature_columns → getVal r1 c = getVal r c) := by
  rw [add_features_row] at h
  cases h1 : add_suspicious_country_row r with
  | none => rw [h1] at h; simp at h
  | some a =>
    rw [h1, Option.some_bind] at h
    cases h2 : add_flesch_reading_ease_row env a with
    | none => rw [h2] at h; simp at h
    | some b =>
      rw [h2, Option.some_bind] at h
      cases h3 : add_percent_difficult_words_row env b with
      | none => rw [h3] at h; simp at h
      | some d =>
        rw [h3, Option.some_bind] at h
        have s1 := add_suspicious_country_row_spec r a h1
        have s2 := add_flesch_reading_ease_row_spec env a b h2
        have s3 := add_percent_difficult_words_row_spec env b d h3
        have s4 := add_sentiment_row_spec env d r1 h
        constructor
        · intro c hc
          simp only [derived_feature_columns, List.mem_cons, List.not_mem_nil,
            or_false] at hc
          rcases hc with rfl | rfl | rfl | rfl | rfl
          · rw [s4.2.2 _ (by decide) (by decide), s3.2 _ (by decide),
              s2.2 _ (by decide)]
            exact s1.1
          · rw [s4.2.2 _ (by decide) (by decide), s3.2 _ (by decide)]
            exact s2.1
          · rw [s4.2.2 _ (by decide) (by decide)]
            exact s3.1
          · exact s4.1
          · exact s4.2.1
        · intro c hc
          simp only [derived_feature_columns, List.mem_cons, List.not_mem_nil,
            or_false, not_or] at hc
          obtain ⟨n1, n2, n3, n4, n5⟩ := hc
          rw [s4.2.2 _ n4 n5, s3.2 _ n3, s2.2 _ n2, s1.2 _ n1]

/-- A successful per-row feature drop is the removal of the dropped keys. -/
theorem drop_features_row_spec (r r2 : Row) (h : drop_features_row r = some r2) :
    r2 = dropKeys dropped_columns r := by
  rw [drop_features_row] at h
  by_cases hall : dropped_columns.all (fun c => (getVal r c).isSome) = true
  · rw [if_pos hall] at h
    injection h with h
    exact h.symm
  · rw [if_neg hall] at h
    cases h

/-- Feature adding followed by pruning, on one row: the dropped source
columns are gone, the derived feature columns are present, and any other
column the input row held survives. -/
theorem prune_row_spec (env : Env) (r r2 : Row)
    (h : (add_features_row env r).bind drop_features_row = some r2) :
    (∀ c ∈ dropped_columns, getVal r2 c = none) ∧
    (∀ c ∈ derived_feature_columns, (getVal r2 c).isSome = true) ∧
    (∀ c, ¬ c ∈ dropped_columns → (getVal r c).isSome = true →
      (getVal r2 c).isSome = true) := by
  cases h1 : add_features_row env r with
  | none => rw [h1] at h; simp at h
  | some r1 =>
    rw [h1, Option.some_bind] at h
    have hd := drop_features_row_spec r1 r2 h
    subst hd
    have ha := add_features_row_spec env r r1 h1
    refine ⟨?_, ?_, ?_⟩
    · intro c hc
      exact getVal_dropKeys_of_mem _ _ _ hc
    · intro c hc
      have hv : ¬ c ∈ dropped_columns := by
        simp only [derived_feature_columns, List.mem_cons, List.not_mem_nil,
          or_false] at hc
        rcases hc with rfl | rfl | rfl | rfl | rfl <;> decide
      rw [getVal_dropKeys_of_not_mem _ _ _ hv]
      exact ha.1 c hc
    · intro c hcnd hsome
      rw [getVal_dropKeys_of_not_mem _ _ _ hcnd]
      by_cases hder : c ∈ derived_feature_columns
      · exact ha.1 c hder
      · rw [ha.2 c hder]
        exact hsome

/-! Claim theorems. -/

/-- C1: for every country string, `is_suspicious_country` returns 1 when
the string is in the denylist (equals "MK" or "PA") or contains the
substring "REDACTED", and returns 0 when it is not in the denylist and
does not contain "REDACTED". -/
theorem is_suspicious_country_spec (c : String) :
    ((c = "MK" ∨ c = "PA" ∨ ∃ pre post : String, c = pre ++ "REDACTED" ++ post) →
      is_suspicious_country c = 1) ∧
    (¬ (c = "MK" ∨ c = "PA" ∨ ∃ pre post : String, c = pre ++ "REDACTED" ++ post) →
      is_suspicious_country c = 0) := by
  constructor
  · rintro (rfl | rfl | hsub)
    · decide
    · decide
    · have hs : strContains c "REDACTED" = true := (strContains_iff c "REDACTED").mpr hsub
      simp [is_suspicious_country, hs]
  · intro h
    push_neg at h
    obtain ⟨h1, h2, h3⟩ := h
    have hs : ¬ strContains c "REDACTED" = true := by
      intro ht
      obtain ⟨pre, post, hp⟩ := (strContains_iff c "REDACTED").mp ht
      exact h3 pre post hp
    rw [Bool.not_eq_true] at hs
    have hm : ¬ c ∈ sus_countries := by simp [sus_countries, h1, h2]
    simp [is_suspicious_country, hm, hs]

/-- Witness for C1 at the concrete countries "MK" (denylisted) and "US"
(neither denylisted nor containing "REDACTED"). -/
theorem is_suspicious_country_spec_check :
    is_suspicious_country "MK" = 1 ∧ is_suspicious_country "US" = 0 :=
  ⟨(is_suspicious_country_spec "MK").1 (Or.inl rfl),
   (is_suspicious_country_spec "US").2 (by
      rintro (h | h | h)
      · exact absurd h (by decide)
      · exact absurd h (by decide)
      · exact absurd ((strContains_iff "US" "REDACTED").mpr h) (by decide))⟩

/-- C3: `percent_difficult_words` returns exactly 0 when the lexicon count
of the article is zero - the guard fires before any division is reached -
and the difficult-word count divided by the lexicon count otherwise. -/
theorem percent_difficult_words_spec (env : Env) (article : String) :
    (env.lexicon_count article = 0 → percent_difficult_words env article = 0) ∧
    (env.lexicon_count article ≠ 0 →
      percent_difficult_words env article =
        (env.difficult_words article : Rat) / (env.lexicon_count article : Rat)) := by
  constructor <;> intro h <;> simp [percent_difficult_words, h]

/-- Witness for C3: a text with zero countable words maps to exactly 0, and
a text with two countable words, one difficult, maps to one half. -/
theorem percent_difficult_words_spec_check :
    percent_difficult_words env_zero "" = 0 ∧
    percent_difficult_words env_words "w" = 1 / 2 := by
  constructor
  · exact (percent_difficult_words_spec env_zero "").1 rfl
  · rw [(percent_difficult_words_spec env_words "w").2 (by decide)]
    norm_num [env_words]

/-- C4: `analyze_sentiment` rescales both raw sentiment values via
(value + 1) / 2; on raw values between -1 and 1 the rescaled value lies
between 0 and 1, and the rescaling map is strictly monotonic. -/
theorem analyze_sentiment_spec (env : Env) (article : String) :
    (analyze_sentiment env article =
      ((env.polarity article + 1) / 2, (env.subjectivity article + 1) / 2)) ∧
    (∀ v : Rat, -1 ≤ v → v ≤ 1 → 0 ≤ (v + 1) / 2 ∧ (v + 1) / 2 ≤ 1) ∧
    (∀ a b : Rat, a < b → (a + 1) / 2 < (b + 1) / 2) := by
  refine ⟨rfl, ?_, ?_⟩
  · intro v h1 h2
    constructor <;> linarith
  · intro a b h
    linarith

/-- Witness for C4: the rescaled pair at the zero environment, the bounds
at the raw value 0, and strictness at the raw pair 0 < 1. -/
theorem analyze_sentiment_spec_check :
    analyze_sentiment env_zero "" = (1 / 2, 1 / 2) ∧
    (0 ≤ ((0 : Rat) + 1) / 2 ∧ ((0 : Rat) + 1) / 2 ≤ 1) ∧
    ((0 : Rat) + 1) / 2 < ((1 : Rat) + 1) / 2 := by
  refine ⟨?_, (analyze_sentiment_spec env_zero "").2.1 0 (by norm_num) (by norm_num),
    (analyze_sentiment_spec env_zero "").2.2 0 1 (by norm_num)⟩
  rw [(analyze_sentiment_spec env_zero "").1]
  norm_num [env_zero]

/-- C10: when the raw subjectivity of an article lies between 0 and 1 (the
actual output domain of the analyzer), the subjectivity component produced by
`analyze_sentiment` equals (subjectivity + 1) / 2 and lies between one half
and one, so no value below one half is ever produced for this feature. -/
theorem analyze_sentiment_subjectivity_spec (env : Env) (article : String)
    (h0 : 0 ≤ env.subjectivity article) (h1 : env.subjectivity article ≤ 1) :
    (analyze_sentiment env article).2 = (env.subjectivity article + 1) / 2 ∧
    1 / 2 ≤ (analyze_sentiment env article).2 ∧
    (analyze_sentiment env article).2 ≤ 1 := by
  refine ⟨rfl, ?_, ?_⟩ <;> rw [analyze_sentiment] <;> simp <;> linarith

/-- Witness for C10 at the zero environment, whose raw subjectivity is 0. -/
theorem analyze_sentiment_subjectivity_spec_check :
    (analyze_sentiment env_zero "").2 = (env_zero.subjectivity "" + 1) / 2 ∧
    1 / 2 ≤ (analyze_sentiment env_zero "").2 ∧
    (analyze_sentiment env_zero "").2 ≤ 1 :=
  analyze_sentiment_subjectivity_spec env_zero ""
    (by norm_num [env_zero]) (by norm_num [env_zero])

/-- C8 counterexample: with the wall clock at 1 and a creation timestamp of
2, the scaling step succeeds and yields the value 2, which is outside the
0..1 range - so the claimed range does not hold of every row. -/
theorem scale_creation_dates_counterexample :
    scale_creation_dates env_zero [[("creation_date", Value.num 2)]] =
      some [[("creation_date", Value.num 2)]] ∧ ¬ ((2 : Rat) ≤ 1) := by
  constructor
  · norm_num [scale_creation_dates, optMap, scale_creation_dates_row, getVal, setVal,
      env_zero]
  · norm_num

/-- C8 amended: the scaling step replaces each creation timestamp by the
timestamp divided by the wall-clock timestamp sampled at run time (the
frame-level step being the row map of this replacement), and the resulting
value lies in the 0..1 range provided the timestamp lies between 0 and the
wall-clock value. -/
theorem scale_creation_dates_spec (env : Env) (df : List Row) (r r2 : Row) (q : Rat)
    (hrow : scale_creation_dates_row env r = some r2)
    (hq : getVal r "creation_date" = some (Value.num q)) :
    scale_creation_dates env df = optMap (scale_creation_dates_row env) df ∧
    getVal r2 "creation_date" = some (Value.num (q / env.now_timestamp)) ∧
    (0 < env.now_timestamp → 0 ≤ q → q ≤ env.now_timestamp →
      0 ≤ q / env.now_timestamp ∧ q / env.now_timestamp ≤ 1) := by
  refine ⟨rfl, ?_, ?_⟩
  · rw [scale_creation_dates_row, hq] at hrow
    injection hrow with hrow
    subst hrow
    exact getVal_setVal_self r "creation_date" (Value.num (q / env.now_timestamp))
  · intro h0 h1 h2
    exact ⟨div_nonneg h1 (le_of_lt h0), (div_le_one h0).mpr h2⟩

/-- Witness for the amended C8 at a past timestamp 1 under wall clock 1. -/
theorem scale_creation_dates_spec_check :
    0 ≤ (1 : Rat) / env_zero.now_timestamp ∧ (1 : Rat) / env_zero.now_timestamp ≤ 1 :=
  (scale_creation_dates_spec env_zero [] [("creation_date", Value.num 1)]
      (setVal [("creation_date", Value.num 1)] "creation_date"
        (Value.num (1 / env_zero.now_timestamp))) 1 rfl rfl).2.2
    (by norm_num [env_zero]) (by norm_num) (by norm_num [env_zero])

/-- C9: `train_neural_network` issues exactly one fit call appended to the
model trace, on the full training features and labels, with exactly 400
epochs, no early-stopping callback, no validation split, and no batch-size
argument, so the library default applies - per the spec a full batch, the
whole training set; the layer stack is left unchanged. -/
theorem train_neural_network_spec (m : NeuralNetworkModel)
    (training_features : List Row) (training_labels : List Value) :
    ∃ c : FitCall,
      (train_neural_network m training_features training_labels).fit_calls =
        m.fit_calls ++ [c] ∧
      c.x = training_features ∧ c.y = training_labels ∧ c.epochs = 400 ∧
      c.batch_size = none ∧
      keras_effective_batch_size c = training_features.length ∧
      c.callbacks = [] ∧ c.validation_split = none ∧
      (train_neural_network m training_features training_labels).layers = m.layers :=
  ⟨⟨training_features, training_labels, 400, none, [], none⟩,
    rfl, rfl, rfl, rfl, rfl, rfl, rfl, rfl, rfl⟩

/-- C2: the full refinement pipeline is the row-by-row map of one per-row
refinement function - each output row is derived from the input row at the
same position, so row order is preserved - and whenever the pipeline
succeeds the output has exactly as many rows as the input. -/
theorem refine_fake_news_data_preserves_rows (env : Env) (df : List Row) :
    refine_fake_news_data env df = optMap (refine_fake_news_data_row env) df ∧
    ∀ df2, refine_fake_news_data env df = some df2 → df2.length = df.length := by
  have key : refine_fake_news_data env df = optMap (refine_fake_news_data_row env) df := by
    rw [refine_fake_news_data, add_features_rowwise]
    simp only [drop_features, scale_features, scale_creation_dates]
    simp only [optMap_bind]
    rfl
  refine ⟨key, fun df2 h => ?_⟩
  rw [key] at h
  exact optMap_length _ df df2 h

/-- Witness for C2: the one-row sample frame refines to a one-row frame. -/
theorem refine_fake_news_data_preserves_rows_check :
    ([pruned_sample_row] : List Row).length = sample_df.length :=
  (refine_fake_news_data_preserves_rows env_zero sample_df).2 [pruned_sample_row] rfl

/-- C6: after the pruning step of the pipeline (feature adding, then
feature dropping) on a frame whose rows hold the creation-date column, no
output row has any of the five dropped source columns, every output row
has the five derived feature columns and the creation-date column, and
each output row comes from an input row all of whose other, untouched
columns survive in it. -/
theorem drop_features_pruning_spec (env : Env) (df df2 : List Row)
    (hcd : ∀ r ∈ df, (getVal r "creation_date").isSome = true)
    (h : (add_features env df).bind drop_features = some df2) :
    ∀ r2 ∈ df2,
      (∀ c ∈ dropped_columns, getVal r2 c = none) ∧
      (∀ c ∈ derived_feature_columns, (getVal r2 c).isSome = true) ∧
      (getVal r2 "creation_date").isSome = true ∧
      ∃ r, r ∈ df ∧ ∀ c, ¬ c ∈ dropped_columns → (getVal r c).isSome = true →
        (getVal r2 c).isSome = true := by
  rw [add_features_rowwise] at h
  have h2 : optMap (fun r => (add_features_row env r).bind drop_features_row) df =
      some df2 := by
    rw [← optMap_bind]
    exact h
  intro r2 hr2
  obtain ⟨r, hr, hfr⟩ := optMap_mem _ df df2 h2 r2 hr2
  have hp := prune_row_spec env r r2 hfr
  exact ⟨hp.1, hp.2.1, hp.2.2 "creation_date" (by decide) (hcd r hr), r, hr, hp.2.2⟩

/-- Witness for C6: the concrete pruned sample row lacks the dropped
country column while holding the derived and creation-date columns. -/
theorem drop_features_pruning_spec_check :
    getVal pruned_unscaled_sample_row "country" = none ∧
    (getVal pruned_unscaled_sample_row "is_suspicious_country").isSome = true ∧
    (getVal pruned_unscaled_sample_row "creation_date").isSome = true := by
  have h := drop_features_pruning_spec env_zero sample_df [pruned_unscaled_sample_row]
    (by decide) rfl pruned_unscaled_sample_row (by simp)
  exact ⟨h.1 "country" (by decide), h.2.1 "is_suspicious_country" (by decide),
    h.2.2.1⟩

/-- C5: the loader propagates a fetch error, a parse error and a missing
label column as uncaught failures of the whole call, and on success
returns the parsed rows with the "is_fake" column removed as the feature
table together with the "is_fake" values, in row order, as the labels. -/
theorem load_fake_news_data_spec (web : Web) (file_name : String) :
    (∀ e, web.fetch (base_url ++ file_name) = Except.error e →
      load_fake_news_data web file_name = Except.error e) ∧
    (∀ s e, web.fetch (base_url ++ file_name) = Except.ok s →
      web.parse s = Except.error e →
      load_fake_news_data web file_name = Except.error e) ∧
    (∀ s rows, web.fetch (base_url ++ file_name) = Except.ok s →
      web.parse s = Except.ok rows →
      ((∃ r, r ∈ rows ∧ getVal r "is_fake" = none) →
        load_fake_news_data web file_name =
          Except.error (FetchError.keyError "is_fake")) ∧
      (∀ feats labs, load_fake_news_data web file_name = Except.ok (feats, labs) →
        feats = rows.map (dropKeys ["is_fake"]) ∧
        optMap (fun r => getVal r "is_fake") rows = some labs ∧
        ∀ r2, r2 ∈ feats → getVal r2 "is_fake" = none)) := by
  refine ⟨?_, ?_, ?_⟩
  · intro e he
    rw [load_fake_news_data, he]
    rfl
  · intro s e hf hp
    rw [load_fake_news_data, hf]
    show (web.parse s).bind _ = Except.error e
    rw [hp]
    rfl
  · intro s rows hf hp
    have key : load_fake_news_data web file_name =
        (pd_drop_column "is_fake" rows).bind (fun feats =>
          (pd_get_column "is_fake" rows).bind (fun labs => Except.ok (feats, labs))) := by
      rw [load_fake_news_data, hf]
      show (web.parse s).bind _ = _
      rw [hp]
      rfl
    constructor
    · rintro ⟨r, hrmem, hrnone⟩
      have hnone : optMap (fun r => if (getVal r "is_fake").isSome then
          some (dropKeys ["is_fake"] r) else none) rows = none :=
        optMap_eq_none_of_mem _ rows r hrmem (by rw [hrnone]; rfl)
      rw [key, pd_drop_column, hnone]
      rfl
    · intro feats labs hok
      rw [key] at hok
      cases hdc : optMap (fun r => if (getVal r "is_fake").isSome then
          some (dropKeys ["is_fake"] r) else none) rows with
      | none =>
        rw [pd_drop_column, hdc] at hok
        exact Except.noConfusion hok
      | some out =>
        rw [pd_drop_column, hdc] at hok
        have hok2 : (pd_get_column "is_fake" rows).bind
            (fun labs2 => Except.ok (out, labs2)) = Except.ok (feats, labs) := hok
        cases hgc : optMap (fun r => getVal r "is_fake") rows with
        | none =>
          rw [pd_get_column, hgc] at hok2
          exact Except.noConfusion hok2
        | some vs =>
          rw [pd_get_column, hgc] at hok2
          have hok3 : (Except.ok (out, vs) :
              Except FetchError (List Row × List Value)) = Except.ok (feats, labs) := hok2
          injection hok3 with hpair
          have hfe : out = feats := congrArg Prod.fst hpair
          have hla : vs = labs := congrArg Prod.snd hpair
          subst hfe
          subst hla
          have hptwise : ∀ r ∈ rows, (fun r => if (getVal r "is_fake").isSome then
              some (dropKeys ["is_fake"] r) else none) r =
              some (dropKeys ["is_fake"] r) := by
            intro r hrmem
            have hi := optMap_isSome_of_eq_some _ rows out hdc r hrmem
            by_cases hsome : (getVal r "is_fake").isSome
            · simp [hsome]
            · simp [hsome] at hi
          have hmap := optMap_eq_map _ (dropKeys ["is_fake"]) rows hptwise
          rw [hmap] at hdc
          have hout : out = rows.map (dropKeys ["is_fake"]) := (Option.some.inj hdc).symm
          refine ⟨hout, rfl, ?_⟩
          intro r2 hr2
          rw [hout] at hr2
          obtain ⟨r, hrmem, hreq⟩ := List.mem_map.mp hr2
          rw [← hreq]
          exact getVal_dropKeys_of_mem ["is_fake"] r "is_fake" (by simp)

/-- Witness for C5: on the fixed web environment the loader returns the
parsed row without its label column, and the label value separately. -/
theorem load_fake_news_data_spec_check :
    ([[("title", Value.str "t")]] : List Row) =
      ([[("title", Value.str "t"), ("is_fake", Value.num 1)]] : List Row).map
        (dropKeys ["is_fake"]) ∧
    optMap (fun r => getVal r "is_fake")
      [[("title", Value.str "t"), ("is_fake", Value.num 1)]] = some [Value.num 1] ∧
    getVal [("title", Value.str "t")] "is_fake" = none := by
  have h := ((load_fake_news_data_spec web_ok "f").2.2 "doc"
    [[("title", Value.str "t"), ("is_fake", Value.num 1)]] rfl rfl).2
    [[("title", Value.str "t")]] [Value.num 1] rfl
  exact ⟨h.1, h.2.1, h.2.2 [("title", Value.str "t")] (by simp)⟩

/-- C7: on a frame of at least ten rows the classical evaluator reports
exactly one row per configured classifier - eight rows, in the fixed panel
order - each summarizing the ten per-fold accuracies of a deterministic,
unshuffled 10-fold split whose test folds are contiguous blocks that
concatenate to the full index range in order. -/
theorem evaluate_sklearn_models_spec (env : SkEnv) (n : Nat) (hn : 10 ≤ n) :
    ∃ folds rows,
      kfold_test_folds 10 n = some folds ∧ folds.length = 10 ∧
      folds.flatten = List.range n ∧
      evaluate_sklearn_models env n = some rows ∧
      rows.length = 8 ∧
      rows.map Prod.fst = models.map Prod.fst ∧
      ∀ m ∈ models, ∃ scores : List Rat,
        cross_val_score env m.2 10 n = some scores ∧ scores.length = 10 ∧
        (m.1, mean scores, population_variance scores) ∈ rows := by
  obtain ⟨folds, hk, hlen, hflat⟩ := kfold_test_folds_spec 10 n (by norm_num) hn
  set S : Classifier → List Rat := fun clf =>
    (folds.map (fun te => ((List.range n).filter (fun i => !(te.contains i)), te))).map
      (fun s => env.fit_accuracy clf s.1 s.2) with hS
  have hsplit : kfold_splits 10 n = some (folds.map (fun te =>
      ((List.range n).filter (fun i => !(te.contains i)), te))) := by
    rw [kfold_splits, hk]
    rfl
  have hcross : ∀ clf : Classifier, cross_val_score env clf 10 n = some (S clf) := by
    intro clf
    rw [cross_val_score, hsplit, hS]
    rfl
  have hslen : ∀ clf : Classifier, (S clf).length = 10 := by
    intro clf
    rw [hS]
    simp [hlen]
  set g : String × Classifier → String × Rat × Rat := fun m =>
    (m.1, mean (S m.2), population_variance (S m.2)) with hg
  have heval : evaluate_sklearn_models env n = some (models.map g) := by
    rw [evaluate_sklearn_models]
    refine optMap_eq_map _ g models (fun m _ => ?_)
    rw [hcross m.2, hg]
    rfl
  refine ⟨folds, models.map g, hk, hlen, hflat, heval, by rw [hg]; rfl, by rw [hg]; rfl,
    fun m hm => ⟨S m.2, hcross m.2, hslen m.2, List.mem_map_of_mem g hm⟩⟩

/-- Witness for C7 at exactly ten samples under the constant-accuracy
environment. -/
theorem evaluate_sklearn_models_spec_check :
    10 ≤ 10 ∧
    ∃ folds rows,
      kfold_test_folds 10 10 = some folds ∧ folds.length = 10 ∧
      folds.flatten = List.range 10 ∧
      evaluate_sklearn_models sk_env_one 10 = some rows ∧
      rows.length = 8 ∧
      rows.map Prod.fst = models.map Prod.fst ∧
      ∀ m ∈ models, ∃ scores : List Rat,
        cross_val_score sk_env_one m.2 10 10 = some scores ∧ scores.length = 10 ∧
        (m.1, mean scores, population_variance scores) ∈ rows :=
  ⟨by norm_num, evaluate_sklearn_models_spec sk_env_one 10 (by norm_num)⟩
